import Mathlib

/-!
Verification of the Gaussian-splat export pipeline
(`blender_splat_export.py`) against its natural-language specification.

The Python source is shallowly embedded: pure numeric computations become
Lean functions over `ℚ` (for code whose arithmetic is rational: counts,
clamps, colors, serialization) and over `ℝ` (for code using `math.log`,
`math.acos`, `math.sin`, `math.cos`, `math.sqrt`).  Python's
`ZeroDivisionError` on float division by `0.0` is modelled with `Option`
(`none` = the exception propagates).  Python's `int(...)` truncation
toward zero is modelled by `pyint`.
-/

namespace SplatExport

/-! ## Sampler: surface mode (`sample_mesh`, lines 1203-1210)

`total_area = sum(face.calc_area() for face in bm.faces)`
`num_samples = int(total_area * settings.sample_density)`
per face: `face_samples = max(1, int((face_area / total_area) * num_samples))`

A mesh is abstracted to its list of per-face areas (`calc_area()` values,
always nonnegative in the host).  Dividing by a zero `total_area` raises
`ZeroDivisionError` in Python, hence the `Option`.
-/

/-- Python `int(q)`: truncation toward zero. -/
def pyint (q : ℚ) : ℤ :=
  if 0 ≤ q then ⌊q⌋ else -⌊-q⌋

/-- `num_samples = int(total_area * settings.sample_density)` where
`total_area` is the sum of the per-face areas. -/
def meshNumSamples (areas : List ℚ) (density : ℚ) : ℤ :=
  pyint (areas.sum * density)

/-- `face_samples = max(1, int((face_area / total_area) * num_samples))`;
`none` models the `ZeroDivisionError` raised when `total_area == 0.0`. -/
def faceSampleCount (totalArea faceArea : ℚ) (numSamples : ℤ) : Option ℤ :=
  if totalArea = 0 then none
  else some (max 1 (pyint (faceArea / totalArea * (numSamples : ℚ))))

/-- Effectful traversal of a list: collects the results in order, `none`
as soon as one step raises (Python's exception propagation). -/
def optionTraverse {α β : Type} (f : α → Option β) : List α → Option (List β)
  | [] => some []
  | a :: t => (f a).bind fun b => (optionTraverse f t).map fun bs => b :: bs

/-- Per-face sample counts of `sample_mesh`'s loop, in face order; `none`
if any iteration raises (i.e. the first division by a zero total area). -/
def meshSampleCounts (areas : List ℚ) (density : ℚ) : Option (List ℤ) :=
  optionTraverse (fun a => faceSampleCount areas.sum a (meshNumSamples areas density)) areas

/-- Total number of samples `sample_mesh` produces for one mesh. -/
def meshTotalSamples (areas : List ℚ) (density : ℚ) : Option ℤ :=
  (meshSampleCounts areas density).map List.sum

/-! ## Batch animation export (`batch_export_frames`, lines 849-876 /
344-371; both copies are line-for-line identical in the modelled part)

The per-frame export (`export_single_frame`) is an opaque collaborator
here; it is abstracted as a function from the frame number to the
operator status it returns. -/

/-- Host operator return statuses used by the export code paths. -/
inductive OpStatus where
  | FINISHED
  | CANCELLED
deriving DecidableEq

/-- Report severities used by `self.report` in `batch_export_frames`. -/
inductive ReportKind where
  | INFO
  | WARNING
deriving DecidableEq

/-- Observable outcome of one `batch_export_frames` call. -/
structure BatchOutcome where
  success : ℕ
  fail : ℕ
  finalFrame : ℤ
  finalReport : ReportKind
  ret : OpStatus
deriving DecidableEq

/-- Python `range(start_frame, end_frame + 1)` as a list of frames. -/
def frameRange (startFrame endFrame : ℤ) : List ℤ :=
  (List.range (endFrame + 1 - startFrame).toNat).map (fun i => startFrame + i)

/-- The counting loop: `success_count`/`fail_count` accumulation over the
frame range (`if result == FINISHED: success += 1 else: fail += 1`). -/
def exportTally (exportFrame : ℤ → OpStatus) (frames : List ℤ) : ℕ × ℕ :=
  frames.foldl
    (fun acc fr =>
      if exportFrame fr = OpStatus.FINISHED then (acc.1 + 1, acc.2) else (acc.1, acc.2 + 1))
    (0, 0)

/-- `batch_export_frames`: loop over `range(start, end+1)`, tally
successes and failures, restore the original frame
(`context.scene.frame_set(original_frame)`), report `INFO` when
`fail_count == 0` and `WARNING` otherwise, and return `set(FINISHED)`
on both branches. -/
def batch_export_frames (startFrame endFrame originalFrame : ℤ)
    (exportFrame : ℤ → OpStatus) : BatchOutcome :=
  let tally := exportTally exportFrame (frameRange startFrame endFrame)
  { success := tally.1
    fail := tally.2
    finalFrame := originalFrame
    finalReport := if tally.2 = 0 then ReportKind.INFO else ReportKind.WARNING
    ret := OpStatus.FINISHED }

/-! ## Opacity packing (`create_mesh_generator`, line 1415)

`packOpacity = (opacity <= 0) ? -20 : (opacity >= 1) ? 20
             : -Math.log(1 / opacity - 1)` -/

/-- The `packOpacity` arrow function emitted into the generator script. -/
noncomputable def packOpacity (opacity : ℝ) : ℝ :=
  if opacity ≤ 0 then -20
  else if opacity ≥ 1 then 20
  else -Real.log (1 / opacity - 1)

/-- The sigmoid, the inverse the spec names for the logit packing
(`opacity_unpack`). -/
noncomputable def opacity_unpack (x : ℝ) : ℝ :=
  1 / (1 + Real.exp (-x))

/-! ## Scale estimation (`sample_vertices` lines 1137-1151,
`sample_mesh` lines 1225-1237, `create_mesh_generator` line 1390)

The KD-tree is built exactly when `use_auto_scale` is set, so
`settings.use_auto_scale and kd` reduces to `use_auto_scale`; the
nearest-neighbor query result is abstracted to whether a hit exists and
its distance. -/

/-- Vertex mode: `auto_scale = max(nearest_dist, 0.0001)` when the query
returned a second neighbor, else `settings.splat_scale`. -/
def autoScaleVertex (hasSecondNeighbor : Bool) (nearestDist splatScale : ℚ) : ℚ :=
  if hasSecondNeighbor then max nearestDist (1 / 10000) else splatScale

/-- Vertex mode `final_scale`: the auto estimate (clamped before the
multiply) times `splat_scale` when auto-scale is on, else `splat_scale`;
then `final_scale = max(final_scale, 0.0001)`. -/
def finalScaleVertex (useAutoScale hasSecondNeighbor : Bool)
    (nearestDist splatScale : ℚ) : ℚ :=
  max (if useAutoScale then autoScaleVertex hasSecondNeighbor nearestDist splatScale * splatScale
       else splatScale) (1 / 10000)

/-- Surface mode `final_scale` (`auto_scale = max(nearest[2], 0.0001)`
when the query hit, else `splat_scale`; same double clamp). -/
def finalScaleSurface (useAutoScale hasNearest : Bool)
    (nearestDist splatScale : ℚ) : ℚ :=
  max (if useAutoScale then (if hasNearest then max nearestDist (1 / 10000) else splatScale) * splatScale
       else splatScale) (1 / 10000)

/-- `scale = math.log(sample['scale'])` in `create_mesh_generator`. -/
noncomputable def log_scale (s : ℚ) : ℝ := Real.log (s : ℝ)

/-- Scales of the records `sample_vertices` emits, one per vertex, from
each vertex's neighbor-query outcome. -/
def sampleScalesVertex (useAutoScale : Bool) (splatScale : ℚ)
    (neighborInfo : List (Bool × ℚ)) : List ℚ :=
  neighborInfo.map fun p => finalScaleVertex useAutoScale p.1 p.2 splatScale

/-! ## Color resolution (`get_vertex_color`, lines 1318-1369, and the
opacity multiply at line 1154)

A mesh is abstracted to what the function touches: `loops` is the list
of loop vertex indices (position = loop index), `polygons` the list of
per-face vertex-index lists (position = face index).  A color attribute
carries its domain and its RGBA data list; `material` is the Principled
BSDF base color when one exists. -/

/-- An RGBA color value (Blender color attributes are 4-component). -/
structure RGBA where
  r : ℚ
  g : ℚ
  b : ℚ
  a : ℚ
deriving DecidableEq, Inhabited

/-- Color attribute storage domains. -/
inductive AttrDomain where
  | POINT
  | CORNER
  | FACE
deriving DecidableEq

/-- A color attribute: storage domain plus per-element RGBA data. -/
structure ColorAttribute where
  domain : AttrDomain
  data : List RGBA

/-- Material / default fallback (the tail of `get_vertex_color`):
Principled base color when available, else opaque white. -/
def colorFallback (material : Option RGBA) : (ℚ × ℚ × ℚ) × ℚ :=
  match material with
  | some c => ((c.r, c.g, c.b), c.a)
  | none => ((1, 1, 1), 1)

/-- Averaging of the collected colors and alphas
(`avg_color = [sum(c[i] for c in colors) / len(colors) ...]`). -/
def avgRGBA (cs : List RGBA) : (ℚ × ℚ × ℚ) × ℚ :=
  (((cs.map RGBA.r).sum / cs.length, (cs.map RGBA.g).sum / cs.length,
    (cs.map RGBA.b).sum / cs.length), (cs.map RGBA.a).sum / cs.length)

/-- `get_vertex_color(vert_index, mesh, has_vertex_colors,
color_attribute, material, settings)`. -/
def get_vertex_color (vertIndex : ℕ) (loops : List ℕ) (polygons : List (List ℕ))
    (hasVertexColors : Bool) (colorAttribute : Option ColorAttribute)
    (material : Option RGBA) (useVertexColors : Bool) : (ℚ × ℚ × ℚ) × ℚ :=
  match useVertexColors, hasVertexColors, colorAttribute with
  | true, true, some attr =>
    match attr.domain with
    | AttrDomain.POINT =>
        if h : vertIndex < attr.data.length then
          let c := attr.data.get ⟨vertIndex, h⟩
          ((c.r, c.g, c.b), c.a)
        else colorFallback material
    | AttrDomain.CORNER =>
        let cs := (loops.enum.filter fun p =>
          decide (p.2 = vertIndex) && decide (p.1 < attr.data.length)).map
            fun p => attr.data.getD p.1 default
        if cs = [] then colorFallback material else avgRGBA cs
    | AttrDomain.FACE =>
        let cs := (polygons.enum.filter fun p =>
          decide (vertIndex ∈ p.2) && decide (p.1 < attr.data.length)).map
            fun p => attr.data.getD p.1 default
        if cs = [] then colorFallback material else avgRGBA cs
  | _, _, _ => colorFallback material

/-- `final_opacity = alpha * settings.splat_opacity` (lines 1154/1240). -/
def final_opacity (alpha splatOpacity : ℚ) : ℚ := alpha * splatOpacity

/-! ## Orientation encoding (`normal_to_quat`, lines 1374-1382) and the
normal computation feeding it (`sample_vertices` line 1134 /
`sample_mesh` line 1222) -/

/-- A 3-vector over the reals. -/
@[ext]
structure Vec3 where
  x : ℝ
  y : ℝ
  z : ℝ

/-- A quaternion in the code's `[x, y, z, w]` layout. -/
structure Quat where
  x : ℝ
  y : ℝ
  z : ℝ
  w : ℝ

/-- `mathutils` dot product. -/
noncomputable def dot3 (a b : Vec3) : ℝ := a.x * b.x + a.y * b.y + a.z * b.z

/-- `mathutils` cross product. -/
noncomputable def cross3 (a b : Vec3) : Vec3 :=
  ⟨a.y * b.z - a.z * b.y, a.z * b.x - a.x * b.z, a.x * b.y - a.y * b.x⟩

/-- Euclidean norm. -/
noncomputable def norm3 (v : Vec3) : ℝ := Real.sqrt (dot3 v v)

/-- `Vector.normalized()`: the unit vector in the same direction, or the
zero vector when the input has zero length (mathutils behavior). -/
noncomputable def normalized3 (v : Vec3) : Vec3 :=
  if norm3 v = 0 then ⟨0, 0, 0⟩
  else ⟨v.x / norm3 v, v.y / norm3 v, v.z / norm3 v⟩

/-- `up = Vector((0, 0, 1))`. -/
def upAxis : Vec3 := ⟨0, 0, 1⟩

/-- `normal_to_quat(normal)`: identity quaternion when
`abs(normal.dot(up)) > 0.999`, else the half-angle construction from
`axis = up.cross(normal).normalized()` and `angle = acos(up.dot(normal))`. -/
noncomputable def normal_to_quat (normal : Vec3) : Quat :=
  if |dot3 normal upAxis| > 999 / 1000 then ⟨0, 0, 0, 1⟩
  else
    let axis := normalized3 (cross3 upAxis normal)
    let angle := Real.arccos (dot3 upAxis normal)
    let halfAngle := angle / 2
    let s := Real.sin halfAngle
    ⟨axis.x * s, axis.y * s, axis.z * s, Real.cos halfAngle⟩

/-- Hamilton product in the `[x, y, z, w]` layout. -/
noncomputable def qmul (a b : Quat) : Quat :=
  ⟨a.w * b.x + a.x * b.w + a.y * b.z - a.z * b.y,
   a.w * b.y - a.x * b.z + a.y * b.w + a.z * b.x,
   a.w * b.z + a.x * b.y - a.y * b.x + a.z * b.w,
   a.w * b.w - a.x * b.x - a.y * b.y - a.z * b.z⟩

/-- Quaternion conjugate. -/
noncomputable def qconj (a : Quat) : Quat := ⟨-a.x, -a.y, -a.z, a.w⟩

/-- Squared quaternion norm. -/
noncomputable def qnormSq (q : Quat) : ℝ := q.x ^ 2 + q.y ^ 2 + q.z ^ 2 + q.w ^ 2

/-- Rotation of a vector by a (unit) quaternion: the vector part of
`q * (v, 0) * conj q`. -/
noncomputable def qrot (q : Quat) (v : Vec3) : Vec3 :=
  let r := qmul (qmul q ⟨v.x, v.y, v.z, 0⟩) (qconj q)
  ⟨r.x, r.y, r.z⟩

/-- A 3×3 matrix (`matrix_world.to_3x3()`). -/
structure Mat3 where
  m00 : ℝ
  m01 : ℝ
  m02 : ℝ
  m10 : ℝ
  m11 : ℝ
  m12 : ℝ
  m20 : ℝ
  m21 : ℝ
  m22 : ℝ

/-- Matrix-vector product (`matrix_world.to_3x3() @ vert.normal`). -/
noncomputable def mat3MulVec (m : Mat3) (v : Vec3) : Vec3 :=
  ⟨m.m00 * v.x + m.m01 * v.y + m.m02 * v.z,
   m.m10 * v.x + m.m11 * v.y + m.m12 * v.z,
   m.m20 * v.x + m.m21 * v.y + m.m22 * v.z⟩

/-- Line 1134 / 1222: the normal handed to the orientation encoder,
`matrix_world.to_3x3() @ vert.normal if settings.use_normals else
Vector((0, 0, 1))` — note: no normalization step. -/
noncomputable def sampleNormal (useNormals : Bool) (matrixWorld3 : Mat3)
    (vertNormal : Vec3) : Vec3 :=
  if useNormals then mat3MulVec matrixWorld3 vertNormal else ⟨0, 0, 1⟩

/-- A uniform scale-by-1/2 world matrix (axis conversion identity). -/
noncomputable def halfScale : Mat3 := ⟨1/2, 0, 0, 0, 1/2, 0, 0, 0, 1/2⟩

/-! ## Splat record packing and serialization (`create_mesh_generator`,
lines 1372-1447)

The emitted generator script is modelled by its semantic contract: the
record count, the column-name manifest, the `getRow` accessor over the
parsed per-sample tuples, and the fixed-precision textual serialization
of each tuple.  The per-sample numeric values (already 6-decimal text in
the file, so exactly representable) are modelled as rationals; `.6f`
formatting is modelled as round-to-nearest at 6 decimals. -/

/-- One packed sample tuple as written by `create_mesh_generator`:
`[pos.x, pos.y, pos.z, log(scale), color0..2, opacity, quat0..3]`. -/
structure PackedRecord where
  px : ℚ
  py : ℚ
  pz : ℚ
  logScale : ℚ
  c0 : ℚ
  c1 : ℚ
  c2 : ℚ
  opacity : ℚ
  r0 : ℚ
  r1 : ℚ
  r2 : ℚ
  r3 : ℚ
deriving DecidableEq, Inhabited

/-- `SH_C0 = 0.28209479177387814` (exact decimal). -/
def SH_C0 : ℚ := 28209479177387814 / 100000000000000000

/-- `packClr = (c) => (c - 0.5) / SH_C0`. -/
def packClr (c : ℚ) : ℚ := (c - 1/2) / SH_C0

/-- The 14 named fields `getRow` fills. -/
structure Row where
  x : ℝ
  y : ℝ
  z : ℝ
  scale_0 : ℝ
  scale_1 : ℝ
  scale_2 : ℝ
  f_dc_0 : ℝ
  f_dc_1 : ℝ
  f_dc_2 : ℝ
  opacity : ℝ
  rot_0 : ℝ
  rot_1 : ℝ
  rot_2 : ℝ
  rot_3 : ℝ

/-- The `this.getRow = (index, row) => ...` accessor: passes position
and rotation through, replicates the single log-scale value `s[3]` into
all three scale channels, color-packs `s[4..6]`, opacity-packs `s[7]`. -/
noncomputable def getRowFun (samples : List PackedRecord) (index : ℕ) : Row :=
  let s := samples.getD index default
  { x := (s.px : ℝ)
    y := (s.py : ℝ)
    z := (s.pz : ℝ)
    scale_0 := (s.logScale : ℝ)
    scale_1 := (s.logScale : ℝ)
    scale_2 := (s.logScale : ℝ)
    f_dc_0 := ((packClr s.c0 : ℚ) : ℝ)
    f_dc_1 := ((packClr s.c1 : ℚ) : ℝ)
    f_dc_2 := ((packClr s.c2 : ℚ) : ℝ)
    opacity := packOpacity (s.opacity : ℝ)
    rot_0 := (s.r0 : ℝ)
    rot_1 := (s.r1 : ℝ)
    rot_2 := (s.r2 : ℝ)
    rot_3 := (s.r3 : ℝ) }

/-- The generator object the script exposes. -/
structure Generator where
  count : ℕ
  columnNames : List String
  getRow : ℕ → Row

/-- `create_mesh_generator`: `this.count = len(samples)`, the fixed
manifest, and the row accessor. -/
noncomputable def create_mesh_generator (samples : List PackedRecord) : Generator :=
  { count := samples.length
    columnNames := ["x", "y", "z", "scale_0", "scale_1", "scale_2",
      "f_dc_0", "f_dc_1", "f_dc_2", "opacity",
      "rot_0", "rot_1", "rot_2", "rot_3"]
    getRow := fun index => getRowFun samples index }

/-- Decimal digit character of `n % 10`. -/
def digitChar (n : ℕ) : Char :=
  if n % 10 = 0 then '0' else if n % 10 = 1 then '1' else if n % 10 = 2 then '2'
  else if n % 10 = 3 then '3' else if n % 10 = 4 then '4' else if n % 10 = 5 then '5'
  else if n % 10 = 6 then '6' else if n % 10 = 7 then '7' else if n % 10 = 8 then '8'
  else '9'

/-- The 6 fractional digit characters of `n` (most significant first). -/
def sixFrac (n : ℕ) : String :=
  String.mk [digitChar (n / 100000), digitChar (n / 10000), digitChar (n / 1000),
    digitChar (n / 100), digitChar (n / 10), digitChar n]

/-- Python `f"{v:.6f}"` on the modelled rational value: sign, integer
part, `.`, then exactly six fractional digits (rounding to nearest at
the sixth decimal). -/
def fmt6 (q : ℚ) : String :=
  ((if q < 0 then "-" else "") ++
    Nat.repr ((round (|q| * 1000000) : ℤ).toNat / 1000000)) ++ "." ++
    sixFrac ((round (|q| * 1000000) : ℤ).toNat % 1000000)

/-- The bracketed 12-number record line of `sample_str`. -/
def sampleStr (s : PackedRecord) : String :=
  "[" ++ fmt6 s.px ++ ", " ++ fmt6 s.py ++ ", " ++ fmt6 s.pz ++ ", " ++
  fmt6 s.logScale ++ ", " ++ fmt6 s.c0 ++ ", " ++ fmt6 s.c1 ++ ", " ++
  fmt6 s.c2 ++ ", " ++ fmt6 s.opacity ++ ", " ++
  fmt6 s.r0 ++ ", " ++ fmt6 s.r1 ++ ", " ++ fmt6 s.r2 ++ ", " ++ fmt6 s.r3 ++ "]"

/-- `samples_joined = ',\n            '.join(sample_data)`. -/
def serializeSamples (l : List PackedRecord) : String :=
  String.intercalate ",\n            " (l.map sampleStr)

/-- Number of characters after the last `.` of a string. -/
def countFracDigits (s : String) : ℕ :=
  (s.data.reverse.takeWhile (fun c => c != '.')).length

/-! ## Helper lemmas -/

/-- `takeWhile` collects exactly the prefix before the first failing
element. -/
lemma takeWhile_append_stop (p : Char → Bool) (l : List Char) (x : Char)
    (rest : List Char) (hl : ∀ c ∈ l, p c = true) (hx : p x = false) :
    (l ++ x :: rest).takeWhile p = l := by
  induction l with
  | nil => simp [List.takeWhile_cons, hx]
  | cons a t ih =>
      simp only [List.cons_append, List.takeWhile_cons,
        hl a (List.mem_cons_self a t), if_true]
      rw [ih fun c hc => hl c (List.mem_cons_of_mem a hc)]

/-- Fractional-digit count of `pre ++ "." ++ frac` when `frac` has no
dot. -/
lemma countFracDigits_append (pre : String) (l : List Char)
    (hl : ∀ c ∈ l, (c != '.') = true) :
    countFracDigits (pre ++ "." ++ String.mk l) = l.length := by
  unfold countFracDigits
  rw [String.data_append, String.data_append]
  show ((pre.data ++ ['.'] ++ l).reverse.takeWhile (fun c => c != '.')).length = l.length
  rw [List.reverse_append, List.reverse_append, List.reverse_singleton,
    List.singleton_append]
  rw [takeWhile_append_stop _ _ '.' _ (fun c hc => hl c (List.mem_reverse.mp hc))
    (by decide)]
  exact List.length_reverse l

/-- No digit character is a dot. -/
lemma digitChar_not_dot (n : ℕ) : (digitChar n != '.') = true := by
  unfold digitChar
  split_ifs <;> decide

/-- Traversing with a function that always succeeds is a plain map. -/
lemma optionTraverse_some {α β : Type} (g : α → β) :
    ∀ l : List α, optionTraverse (fun a => some (g a)) l = some (l.map g) := by
  intro l
  induction l with
  | nil => rfl
  | cons a t ih => simp [optionTraverse, ih]

/-- A list of integers that are all at least `1` sums to at least its
length. -/
lemma length_le_sum_of_one_le :
    ∀ l : List ℤ, (∀ x ∈ l, 1 ≤ x) → (l.length : ℤ) ≤ l.sum := by
  intro l
  induction l with
  | nil => simp
  | cons a t ih =>
      intro h
      have ha : 1 ≤ a := h a (List.mem_cons_self a t)
      have ht : (t.length : ℤ) ≤ t.sum := ih fun x hx => h x (List.mem_cons_of_mem a hx)
      simp only [List.sum_cons, List.length_cons]
      push_cast
      linarith

/-- The success/fail tally of the batch loop covers every frame once. -/
lemma tally_fst_add_snd (exportFrame : ℤ → OpStatus) (frames : List ℤ) :
    ∀ init : ℕ × ℕ,
      (frames.foldl
        (fun acc fr =>
          if exportFrame fr = OpStatus.FINISHED then (acc.1 + 1, acc.2)
          else (acc.1, acc.2 + 1)) init).1 +
      (frames.foldl
        (fun acc fr =>
          if exportFrame fr = OpStatus.FINISHED then (acc.1 + 1, acc.2)
          else (acc.1, acc.2 + 1)) init).2 = init.1 + init.2 + frames.length := by
  induction frames with
  | nil => intro init; simp
  | cons f rest ih =>
      intro init
      simp only [List.foldl_cons]
      rw [ih]
      by_cases h : exportFrame f = OpStatus.FINISHED
      · simp only [if_pos h, List.length_cons]
        omega
      · simp only [if_neg h, List.length_cons]
        omega

/-- Algebraic core of the half-angle construction: if `L` is the length
of `up × n`, `s`/`w` the half-angle sine/cosine (so `2sw = sin θ = L`
and `w² - s² = cos θ = n.z`), then the constructed quaternion is unit
and rotates `up` onto `n`. -/
lemma quat_rotation_algebra (nx ny nz L s w : ℝ) (hL : L ≠ 0)
    (hLsq : L ^ 2 = 1 - nz ^ 2) (hn : nx ^ 2 + ny ^ 2 + nz ^ 2 = 1)
    (hsw : 2 * s * w = L) (hsc : s ^ 2 + w ^ 2 = 1) (hws : w ^ 2 - s ^ 2 = nz) :
    qnormSq ⟨-ny / L * s, nx / L * s, 0, w⟩ = 1 ∧
    qrot ⟨-ny / L * s, nx / L * s, 0, w⟩ upAxis = ⟨nx, ny, nz⟩ := by
  constructor
  · simp only [qnormSq]
    field_simp
    linear_combination s ^ 2 * hn + (w ^ 2 - 1) * hLsq + (1 - nz ^ 2) * hsc
  · simp only [qrot, qmul, qconj, upAxis]
    ext
    · field_simp
      linear_combination nx * hsw
    · field_simp
      linear_combination ny * hsw
    · field_simp
      linear_combination ((1 - nz ^ 2) * L ^ 2) * hws + (-(s ^ 2) * L ^ 2) * hn +
        ((w ^ 2 - nz) * L ^ 2) * hLsq

/-- Specialization of `tally_fst_add_snd` to `exportTally`. -/
lemma exportTally_fst_add_snd (exportFrame : ℤ → OpStatus) (frames : List ℤ) :
    (exportTally exportFrame frames).1 + (exportTally exportFrame frames).2 =
      frames.length := by
  have h := tally_fst_add_snd exportFrame frames (0, 0)
  simpa [exportTally] using h

/-! ## Claim theorems -/

/-- C1 counterexample: in surface mode, a zero-area face does NOT
contribute zero samples — with areas `[1, 0]` and density `2` the
zero-area face is allocated `max(1, 0) = 1` sample; and a mesh whose
total area is zero but which has a face (areas `[0]`) raises
`ZeroDivisionError` (modelled `none`) instead of producing zero samples
without error. -/
theorem C1_counterexample :
    meshSampleCounts [1, 0] 2 = some [2, 1] ∧ meshSampleCounts [0] 100 = none := by
  constructor <;>
    norm_num [meshSampleCounts, optionTraverse, faceSampleCount, meshNumSamples, pyint,
      List.sum_cons, List.sum_nil]

/-- C1 (amended): in surface mode, when the total area is positive a
zero-area face is allocated exactly one sample (the `max(1, ...)` floor
applies to every face); a mesh with zero total area yields zero samples
without error only when it has no faces, and with at least one face the
per-face division by the zero total area raises an error. -/
theorem C1_amended (areas : List ℚ) (density : ℚ) :
    (0 < areas.sum → ∀ n, faceSampleCount areas.sum 0 n = some 1) ∧
    meshSampleCounts [] density = some [] ∧
    (areas.sum = 0 → areas ≠ [] → meshSampleCounts areas density = none) := by
  refine ⟨?_, rfl, ?_⟩
  · intro hA n
    rw [faceSampleCount, if_neg hA.ne']
    norm_num [pyint]
  · intro hsum hne
    obtain ⟨a, rest, rfl⟩ := List.exists_cons_of_ne_nil hne
    simp [meshSampleCounts, optionTraverse, faceSampleCount, hsum]

/-- Witness for C1 (amended) at concrete inputs. -/
theorem C1_amended_witness :
    faceSampleCount ([(1 : ℚ)].sum) 0 5 = some 1 ∧ meshSampleCounts [0] 100 = none :=
  ⟨(C1_amended [1] 5).1 (by norm_num) 5, (C1_amended [0] 100).2.2 (by norm_num) (by simp)⟩

/-- C5: in surface mode with total area `A > 0` (and a nonnegative
density) the global budget is `N = ⌊A * density⌋`, each face gets exactly
`max(1, int(area_f / A * N))` samples, the per-mesh total is at least the
number of faces with positive area, and the realized total can exceed
`N` (witnessed by areas `[3/10, 3/10]` at density `1`: budget `0`, total
`2`). -/
theorem C5_surface_allocation (areas : List ℚ) (density : ℚ)
    (hA : 0 < areas.sum) (hd : 0 ≤ density) :
    meshNumSamples areas density = ⌊areas.sum * density⌋ ∧
    meshSampleCounts areas density =
      some (areas.map (fun a =>
        max 1 (pyint (a / areas.sum * (meshNumSamples areas density : ℚ))))) ∧
    (∀ t, meshTotalSamples areas density = some t →
      (((areas.filter (fun a => 0 < a)).length : ℤ)) ≤ t) ∧
    meshTotalSamples [3/10, 3/10] 1 = some 2 ∧
    meshNumSamples [3/10, 3/10] 1 = 0 := by
  have hfun : (fun a => faceSampleCount areas.sum a (meshNumSamples areas density)) =
      fun a => some (max 1 (pyint (a / areas.sum * (meshNumSamples areas density : ℚ)))) :=
    funext fun a => if_neg hA.ne'
  have hcounts : meshSampleCounts areas density =
      some (areas.map (fun a =>
        max 1 (pyint (a / areas.sum * (meshNumSamples areas density : ℚ))))) := by
    rw [meshSampleCounts, hfun, optionTraverse_some]
  refine ⟨?_, hcounts, ?_, ?_, ?_⟩
  · rw [meshNumSamples, pyint, if_pos (mul_nonneg hA.le hd)]
  · intro t ht
    rw [meshTotalSamples, hcounts] at ht
    rw [Option.map_some', Option.some_inj] at ht
    subst ht
    have hone : ∀ x ∈ areas.map (fun a =>
        max 1 (pyint (a / areas.sum * (meshNumSamples areas density : ℚ)))), 1 ≤ x := by
      intro x hx
      obtain ⟨a, _, rfl⟩ := List.mem_map.mp hx
      exact le_max_left _ _
    calc (((areas.filter (fun a => 0 < a)).length : ℤ))
        ≤ (areas.length : ℤ) := by exact_mod_cast List.length_filter_le _ _
      _ = ((areas.map (fun a =>
            max 1 (pyint (a / areas.sum * (meshNumSamples areas density : ℚ))))).length : ℤ) := by
          rw [List.length_map]
      _ ≤ _ := length_le_sum_of_one_le _ hone
  · norm_num [meshTotalSamples, meshSampleCounts, optionTraverse, faceSampleCount,
      meshNumSamples, pyint, List.sum_cons, List.sum_nil]
  · norm_num [meshNumSamples, pyint, List.sum_cons, List.sum_nil]

/-- Witness for C5 at a concrete one-face mesh. -/
theorem C5_witness :
    meshSampleCounts [(1 : ℚ)] 1 =
      some ([(1 : ℚ)].map (fun a =>
        max 1 (pyint (a / [(1 : ℚ)].sum * (meshNumSamples [(1 : ℚ)] 1 : ℚ))))) :=
  (C5_surface_allocation [1] 1 (by norm_num) (by norm_num)).2.1

/-- C2: the opacity packer returns exactly `-20` for `opacity ≤ 0`,
exactly `20` for `opacity ≥ 1`, and the logit `-ln(1/opacity - 1)` in
between; there the log argument is strictly positive (so the packed
value is a genuine finite real logarithm) and the sigmoid inverse
recovers the opacity exactly. -/
theorem C2_opacity_pack (o : ℝ) :
    (o ≤ 0 → packOpacity o = -20) ∧
    (1 ≤ o → packOpacity o = 20) ∧
    (0 < o → o < 1 →
      0 < 1 / o - 1 ∧
      packOpacity o = -Real.log (1 / o - 1) ∧
      opacity_unpack (packOpacity o) = o) := by
  refine ⟨fun h => by rw [packOpacity, if_pos h], fun h => ?_, fun h0 h1 => ?_⟩
  · rw [packOpacity, if_neg (by linarith), if_pos (by exact h)]
  · have hlt : 1 < 1 / o := by rw [lt_div_iff₀ h0]; linarith
    have hpos : 0 < 1 / o - 1 := by linarith
    have hpack : packOpacity o = -Real.log (1 / o - 1) := by
      rw [packOpacity, if_neg (not_le.mpr h0), if_neg (not_le.mpr h1)]
    refine ⟨hpos, hpack, ?_⟩
    rw [hpack, opacity_unpack, neg_neg, Real.exp_log hpos]
    have harg : (1 : ℝ) + (1 / o - 1) = 1 / o := by ring
    rw [harg, one_div_one_div]

/-- Witness for C2 at opacity `1/2`. -/
theorem C2_witness : opacity_unpack (packOpacity (1 / 2)) = 1 / 2 :=
  ((C2_opacity_pack (1 / 2)).2.2 (by norm_num) (by norm_num)).2.2

/-- C9: batch export tallies every frame of `[start, end]` exactly once
(success + fail = frame count, so one failing frame never aborts the
rest), restores the original current frame afterwards, and for frames
`[1, 3]` with exactly frame `2` failing reports `success = 2`,
`fail = 1`. -/
theorem C9_batch_partial_failure :
    (∀ s e o f, (batch_export_frames s e o f).success + (batch_export_frames s e o f).fail
        = (frameRange s e).length ∧
      (batch_export_frames s e o f).finalFrame = o) ∧
    (frameRange 1 3).length = 3 ∧
    (batch_export_frames 1 3 7
      (fun fr => if fr = 2 then OpStatus.CANCELLED else OpStatus.FINISHED)).success = 2 ∧
    (batch_export_frames 1 3 7
      (fun fr => if fr = 2 then OpStatus.CANCELLED else OpStatus.FINISHED)).fail = 1 := by
  refine ⟨fun s e o f => ⟨?_, rfl⟩, by decide, by decide, by decide⟩
  exact exportTally_fst_add_snd f (frameRange s e)

/-- C10: `batch_export_frames` returns `FINISHED` regardless of how many
frames failed; the report severity (`INFO` iff `fail = 0`, `WARNING`
otherwise) is the only distinction, and even the all-fail run over
`[1, 3]` returns `FINISHED` with a `WARNING` report. -/
theorem C10_batch_always_finished :
    (∀ s e o f, (batch_export_frames s e o f).ret = OpStatus.FINISHED ∧
      ((batch_export_frames s e o f).fail = 0 →
        (batch_export_frames s e o f).finalReport = ReportKind.INFO) ∧
      ((batch_export_frames s e o f).fail ≠ 0 →
        (batch_export_frames s e o f).finalReport = ReportKind.WARNING)) ∧
    (batch_export_frames 1 3 7 (fun _ => OpStatus.CANCELLED)).ret = OpStatus.FINISHED ∧
    (batch_export_frames 1 3 7 (fun _ => OpStatus.CANCELLED)).fail = 3 ∧
    (batch_export_frames 1 3 7 (fun _ => OpStatus.CANCELLED)).finalReport =
      ReportKind.WARNING := by
  refine ⟨fun s e o f => ⟨rfl, fun h => ?_, fun h => ?_⟩, by decide, by decide, by decide⟩
  · simp only [batch_export_frames] at h ⊢
    rw [if_pos h]
  · simp only [batch_export_frames] at h ⊢
    rw [if_neg h]

/-- Witness for C10: an all-success run reports `INFO`. -/
theorem C10_witness :
    (batch_export_frames 1 1 7 (fun _ => OpStatus.FINISHED)).finalReport = ReportKind.INFO :=
  (C10_batch_always_finished.1 1 1 7 (fun _ => OpStatus.FINISHED)).2.1 (by decide)

/-- C6: the emitted scale is clamped to the strictly positive floor
`0.0001` in both sampling modes — the neighbor-distance estimate is
clamped before the multiply by the global multiplier and the product is
clamped again to the same floor — so every per-record scale is at least
`0.0001` and `log_scale` is the genuine (finite) logarithm of a positive
number (`exp (log scale) = scale`). -/
theorem C6_scale_floor (useAuto hasSecond hasNearest : Bool) (d m : ℚ) :
    1 / 10000 ≤ finalScaleVertex useAuto hasSecond d m ∧
    1 / 10000 ≤ finalScaleSurface useAuto hasNearest d m ∧
    (useAuto = true → hasSecond = true →
      finalScaleVertex useAuto hasSecond d m = max (max d (1 / 10000) * m) (1 / 10000)) ∧
    (∀ info, ∀ s ∈ sampleScalesVertex useAuto m info, 1 / 10000 ≤ s) ∧
    Real.exp (log_scale (finalScaleVertex useAuto hasSecond d m)) =
      (finalScaleVertex useAuto hasSecond d m : ℝ) ∧
    Real.exp (log_scale (finalScaleSurface useAuto hasNearest d m)) =
      (finalScaleSurface useAuto hasNearest d m : ℝ) := by
  have hv : 1 / 10000 ≤ finalScaleVertex useAuto hasSecond d m := le_max_right _ _
  have hs : 1 / 10000 ≤ finalScaleSurface useAuto hasNearest d m := le_max_right _ _
  have hposv : (0 : ℝ) < (finalScaleVertex useAuto hasSecond d m : ℝ) := by
    have : (0 : ℚ) < finalScaleVertex useAuto hasSecond d m := lt_of_lt_of_le (by norm_num) hv
    exact_mod_cast this
  have hposs : (0 : ℝ) < (finalScaleSurface useAuto hasNearest d m : ℝ) := by
    have : (0 : ℚ) < finalScaleSurface useAuto hasNearest d m := lt_of_lt_of_le (by norm_num) hs
    exact_mod_cast this
  refine ⟨hv, hs, ?_, ?_, Real.exp_log hposv, Real.exp_log hposs⟩
  · intro h1 h2
    subst h1; subst h2
    rfl
  · intro info s hmem
    obtain ⟨p, _, rfl⟩ := List.mem_map.mp hmem
    exact le_max_right _ _

/-- Witness for C6 at a concrete auto-scale vertex sample. -/
theorem C6_witness :
    finalScaleVertex true true 1 1 = max (max 1 (1 / 10000) * 1) (1 / 10000) :=
  (C6_scale_floor true true true 1 1).2.2.1 rfl rfl

/-- C8: in vertex mode with an enabled POINT-domain color attribute the
sample color and alpha come from a direct lookup at the sample's vertex
index; with uniform data `(0.2, 0.4, 0.6, 0.8)` every resolved color is
`(0.2, 0.4, 0.6)` with alpha `0.8`, and the final opacity is the
resolved alpha times the global opacity multiplier. -/
theorem C8_point_color (vertIndex : ℕ) (loops : List ℕ) (polygons : List (List ℕ))
    (data : List RGBA) (material : Option RGBA) (splatOpacity : ℚ)
    (hlen : vertIndex < data.length) :
    (get_vertex_color vertIndex loops polygons true
        (some ⟨AttrDomain.POINT, data⟩) material true =
      (((data.get ⟨vertIndex, hlen⟩).r, (data.get ⟨vertIndex, hlen⟩).g,
        (data.get ⟨vertIndex, hlen⟩).b), (data.get ⟨vertIndex, hlen⟩).a)) ∧
    ((∀ c ∈ data, c = ⟨2/10, 4/10, 6/10, 8/10⟩) →
      get_vertex_color vertIndex loops polygons true
          (some ⟨AttrDomain.POINT, data⟩) material true = ((2/10, 4/10, 6/10), 8/10) ∧
      final_opacity (get_vertex_color vertIndex loops polygons true
          (some ⟨AttrDomain.POINT, data⟩) material true).2 splatOpacity =
        8/10 * splatOpacity) := by
  have hlookup : get_vertex_color vertIndex loops polygons true
      (some ⟨AttrDomain.POINT, data⟩) material true =
      (((data.get ⟨vertIndex, hlen⟩).r, (data.get ⟨vertIndex, hlen⟩).g,
        (data.get ⟨vertIndex, hlen⟩).b), (data.get ⟨vertIndex, hlen⟩).a) := by
    simp only [get_vertex_color, dif_pos hlen]
  refine ⟨hlookup, fun huni => ?_⟩
  have hc : data.get ⟨vertIndex, hlen⟩ = ⟨2/10, 4/10, 6/10, 8/10⟩ :=
    huni _ (data.get_mem _ _)
  rw [hlookup, hc]
  exact ⟨rfl, rfl⟩

/-- C7: the generator script exposes a record count equal to the number
of samples, the fixed 14-entry column manifest in exactly the specified
order, a row accessor filling all 14 fields (pass-through position and
rotation, the single log-scale replicated into the three scale channels,
color packing `(c - 0.5) / SH_C0` with
`SH_C0 = 0.28209479177387814`, logit opacity packing), every numeric
field is formatted with exactly 6 fractional digits, and serialization
is deterministic (identical input gives identical output text). -/
theorem C7_generator_contract (samples : List PackedRecord) :
    (create_mesh_generator samples).count = samples.length ∧
    (create_mesh_generator samples).columnNames =
      ["x", "y", "z", "scale_0", "scale_1", "scale_2",
       "f_dc_0", "f_dc_1", "f_dc_2", "opacity",
       "rot_0", "rot_1", "rot_2", "rot_3"] ∧
    (create_mesh_generator samples).columnNames.length = 14 ∧
    (create_mesh_generator samples).getRow = (fun i => getRowFun samples i) ∧
    (∀ i, ∀ hi : i < samples.length,
      getRowFun samples i =
        { x := ((samples.get ⟨i, hi⟩).px : ℝ)
          y := ((samples.get ⟨i, hi⟩).py : ℝ)
          z := ((samples.get ⟨i, hi⟩).pz : ℝ)
          scale_0 := ((samples.get ⟨i, hi⟩).logScale : ℝ)
          scale_1 := ((samples.get ⟨i, hi⟩).logScale : ℝ)
          scale_2 := ((samples.get ⟨i, hi⟩).logScale : ℝ)
          f_dc_0 := ((packClr (samples.get ⟨i, hi⟩).c0 : ℚ) : ℝ)
          f_dc_1 := ((packClr (samples.get ⟨i, hi⟩).c1 : ℚ) : ℝ)
          f_dc_2 := ((packClr (samples.get ⟨i, hi⟩).c2 : ℚ) : ℝ)
          opacity := packOpacity ((samples.get ⟨i, hi⟩).opacity : ℝ)
          rot_0 := ((samples.get ⟨i, hi⟩).r0 : ℝ)
          rot_1 := ((samples.get ⟨i, hi⟩).r1 : ℝ)
          rot_2 := ((samples.get ⟨i, hi⟩).r2 : ℝ)
          rot_3 := ((samples.get ⟨i, hi⟩).r3 : ℝ) }) ∧
    SH_C0 = 0.28209479177387814 ∧
    (∀ c : ℚ, packClr c = (c - 0.5) / SH_C0) ∧
    (∀ q : ℚ, countFracDigits (fmt6 q) = 6) ∧
    (∀ l1 l2 : List PackedRecord, l1 = l2 →
      serializeSamples l1 = serializeSamples l2) := by
  refine ⟨rfl, rfl, rfl, rfl, ?_, by norm_num [SH_C0], fun c => by norm_num [packClr],
    ?_, fun l1 l2 h => by rw [h]⟩
  · intro i hi
    have hD : samples.getD i default = samples.get ⟨i, hi⟩ := by
      rw [List.getD_eq_getElem samples default hi, List.get_eq_getElem]
    simp only [getRowFun, hD]
  · intro q
    exact countFracDigits_append
      ((if q < 0 then "-" else "") ++
        Nat.repr ((round (|q| * 1000000) : ℤ).toNat / 1000000))
      [digitChar ((round (|q| * 1000000) : ℤ).toNat % 1000000 / 100000),
       digitChar ((round (|q| * 1000000) : ℤ).toNat % 1000000 / 10000),
       digitChar ((round (|q| * 1000000) : ℤ).toNat % 1000000 / 1000),
       digitChar ((round (|q| * 1000000) : ℤ).toNat % 1000000 / 100),
       digitChar ((round (|q| * 1000000) : ℤ).toNat % 1000000 / 10),
       digitChar ((round (|q| * 1000000) : ℤ).toNat % 1000000)]
      (by
        intro c hc
        simp only [List.mem_cons, List.not_mem_nil, or_false] at hc
        rcases hc with rfl | rfl | rfl | rfl | rfl | rfl <;> exact digitChar_not_dot _)

/-- Witness for C7: the row accessor evaluated on a concrete one-record
sample list, and determinism on a concrete list. -/
theorem C7_witness :
    getRowFun [(⟨1, 2, 3, 4, 5, 6, 7, 8, 9, 10, 11, 12⟩ : PackedRecord)] 0 =
      { x := ((1 : ℚ) : ℝ)
        y := ((2 : ℚ) : ℝ)
        z := ((3 : ℚ) : ℝ)
        scale_0 := ((4 : ℚ) : ℝ)
        scale_1 := ((4 : ℚ) : ℝ)
        scale_2 := ((4 : ℚ) : ℝ)
        f_dc_0 := ((packClr 5 : ℚ) : ℝ)
        f_dc_1 := ((packClr 6 : ℚ) : ℝ)
        f_dc_2 := ((packClr 7 : ℚ) : ℝ)
        opacity := packOpacity ((8 : ℚ) : ℝ)
        rot_0 := ((9 : ℚ) : ℝ)
        rot_1 := ((10 : ℚ) : ℝ)
        rot_2 := ((11 : ℚ) : ℝ)
        rot_3 := ((12 : ℚ) : ℝ) } ∧
    serializeSamples [] = serializeSamples [] :=
  ⟨(C7_generator_contract [⟨1, 2, 3, 4, 5, 6, 7, 8, 9, 10, 11, 12⟩]).2.2.2.2.1 0
      (by norm_num),
   (C7_generator_contract []).2.2.2.2.2.2.2.2 [] [] rfl⟩

/-- C3: for a unit normal `n`, the orientation encoder returns the
identity quaternion exactly when `|n · up| > 0.999`; otherwise it
returns the half-angle construction over `axis = normalize(up × n)` and
`angle = acos(up · n)`, and that quaternion has unit norm and rotates
the canonical up axis `(0,0,1)` exactly onto `n`. -/
theorem C3_normal_to_quat (n : Vec3) (hunit : dot3 n n = 1) :
    (|dot3 n upAxis| > 999 / 1000 → normal_to_quat n = ⟨0, 0, 0, 1⟩) ∧
    (|dot3 n upAxis| ≤ 999 / 1000 →
      normal_to_quat n =
        ⟨(normalized3 (cross3 upAxis n)).x * Real.sin (Real.arccos (dot3 upAxis n) / 2),
         (normalized3 (cross3 upAxis n)).y * Real.sin (Real.arccos (dot3 upAxis n) / 2),
         (normalized3 (cross3 upAxis n)).z * Real.sin (Real.arccos (dot3 upAxis n) / 2),
         Real.cos (Real.arccos (dot3 upAxis n) / 2)⟩ ∧
      qnormSq (normal_to_quat n) = 1 ∧
      qrot (normal_to_quat n) upAxis = n) := by
  constructor
  · intro h
    rw [normal_to_quat, if_pos h]
  · intro h
    have hnot : ¬(|dot3 n upAxis| > 999 / 1000) := not_lt.mpr h
    have hform : normal_to_quat n =
        ⟨(normalized3 (cross3 upAxis n)).x * Real.sin (Real.arccos (dot3 upAxis n) / 2),
         (normalized3 (cross3 upAxis n)).y * Real.sin (Real.arccos (dot3 upAxis n) / 2),
         (normalized3 (cross3 upAxis n)).z * Real.sin (Real.arccos (dot3 upAxis n) / 2),
         Real.cos (Real.arccos (dot3 upAxis n) / 2)⟩ := by
      rw [normal_to_quat, if_neg hnot]
    refine ⟨hform, ?_⟩
    have hdotn : dot3 n upAxis = n.z := by simp [dot3, upAxis]
    have hdotu : dot3 upAxis n = n.z := by simp [dot3, upAxis]
    have habs : |n.z| ≤ 999 / 1000 := hdotn ▸ h
    have hbounds := abs_le.mp habs
    have hn : n.x ^ 2 + n.y ^ 2 + n.z ^ 2 = 1 := by
      simp only [dot3] at hunit
      linear_combination hunit
    have hz2 : n.z ^ 2 < 1 := by nlinarith [hbounds.1, hbounds.2]
    have hpos : (0 : ℝ) < 1 - n.z ^ 2 := by linarith
    have hLpos : 0 < Real.sqrt (1 - n.z ^ 2) := Real.sqrt_pos.mpr hpos
    have hLsq : Real.sqrt (1 - n.z ^ 2) ^ 2 = 1 - n.z ^ 2 := Real.sq_sqrt hpos.le
    have hcross : cross3 upAxis n = ⟨-n.y, n.x, 0⟩ := by
      refine Vec3.ext ?_ ?_ ?_ <;> simp [cross3, upAxis]
    have hdotcc : dot3 (cross3 upAxis n) (cross3 upAxis n) = 1 - n.z ^ 2 := by
      rw [hcross]
      simp only [dot3]
      linear_combination hn
    have hnorm : norm3 (cross3 upAxis n) = Real.sqrt (1 - n.z ^ 2) := by
      rw [norm3, hdotcc]
    have hnne : norm3 (cross3 upAxis n) ≠ 0 := by
      rw [hnorm]; exact hLpos.ne'
    have haxis : normalized3 (cross3 upAxis n) =
        ⟨-n.y / Real.sqrt (1 - n.z ^ 2), n.x / Real.sqrt (1 - n.z ^ 2), 0⟩ := by
      rw [normalized3, if_neg hnne, hnorm, hcross]
      simp [zero_div]
    have h2θ : 2 * (Real.arccos n.z / 2) = Real.arccos n.z := by ring
    have hsw : 2 * Real.sin (Real.arccos n.z / 2) * Real.cos (Real.arccos n.z / 2) =
        Real.sqrt (1 - n.z ^ 2) := by
      have hd := Real.sin_two_mul (Real.arccos n.z / 2)
      rw [h2θ, Real.sin_arccos] at hd
      linarith [hd]
    have hws : Real.cos (Real.arccos n.z / 2) ^ 2 - Real.sin (Real.arccos n.z / 2) ^ 2 =
        n.z := by
      have hd := Real.cos_two_mul' (Real.arccos n.z / 2)
      rw [h2θ, Real.cos_arccos (by linarith [hbounds.1]) (by linarith [hbounds.2])] at hd
      linarith [hd]
    have hsc : Real.sin (Real.arccos n.z / 2) ^ 2 + Real.cos (Real.arccos n.z / 2) ^ 2 =
        1 := Real.sin_sq_add_cos_sq _
    have hq : normal_to_quat n =
        ⟨-n.y / Real.sqrt (1 - n.z ^ 2) * Real.sin (Real.arccos n.z / 2),
         n.x / Real.sqrt (1 - n.z ^ 2) * Real.sin (Real.arccos n.z / 2), 0,
         Real.cos (Real.arccos n.z / 2)⟩ := by
      rw [hform, haxis, hdotu]
      simp [Quat.mk.injEq, zero_mul]
    obtain ⟨hnq, hrq⟩ := quat_rotation_algebra n.x n.y n.z (Real.sqrt (1 - n.z ^ 2))
      (Real.sin (Real.arccos n.z / 2)) (Real.cos (Real.arccos n.z / 2))
      hLpos.ne' hLsq hn hsw hsc hws
    constructor
    · rw [hq]; exact hnq
    · rw [hq, hrq]

/-- C4: the code hands the orientation encoder unnormalized normals.
With `use_normals` on and a uniform scale-1/2 world matrix (identity
axis conversion), the unit vertex normal `(0,0,1)` is transformed to
`(0,0,1/2)` with no normalization (squared length `1/4`), and
`normal_to_quat` on that non-unit normal returns a quaternion of squared
norm `3/4` — not a unit quaternion, contradicting the spec's invariant
that normals are normalized before this stage. -/
theorem C4_unnormalized_normal :
    sampleNormal true halfScale ⟨0, 0, 1⟩ = ⟨0, 0, 1/2⟩ ∧
    dot3 (sampleNormal true halfScale ⟨0, 0, 1⟩)
      (sampleNormal true halfScale ⟨0, 0, 1⟩) = 1/4 ∧
    qnormSq (normal_to_quat ⟨0, 0, 1/2⟩) = 3/4 := by
  have h1 : sampleNormal true halfScale ⟨0, 0, 1⟩ = ⟨0, 0, 1/2⟩ := by
    rw [sampleNormal, if_pos rfl]
    refine Vec3.ext ?_ ?_ ?_ <;> simp [mat3MulVec, halfScale]
  have h2 : dot3 (⟨0, 0, 1/2⟩ : Vec3) ⟨0, 0, 1/2⟩ = 1/4 := by
    simp [dot3]
    norm_num
  have hdotn : dot3 (⟨0, 0, 1/2⟩ : Vec3) upAxis = 1/2 := by simp [dot3, upAxis]
  have hdotu : dot3 upAxis ⟨0, 0, 1/2⟩ = 1/2 := by simp [dot3, upAxis]
  have hnot : ¬(|dot3 (⟨0, 0, 1/2⟩ : Vec3) upAxis| > 999/1000) := by
    rw [hdotn]
    rw [abs_of_nonneg (by norm_num)]
    norm_num
  have hcross : cross3 upAxis ⟨0, 0, 1/2⟩ = ⟨0, 0, 0⟩ := by
    refine Vec3.ext ?_ ?_ ?_ <;> simp [cross3, upAxis]
  have hnorm0 : norm3 (cross3 upAxis ⟨0, 0, 1/2⟩) = 0 := by
    rw [hcross]
    simp [norm3, dot3]
  have haxis : normalized3 (cross3 upAxis ⟨0, 0, 1/2⟩) = ⟨0, 0, 0⟩ := by
    rw [normalized3, if_pos hnorm0]
  have hacos : Real.arccos (1/2 : ℝ) = Real.pi / 3 := by
    rw [← Real.cos_pi_div_three]
    exact Real.arccos_cos (by positivity) (by linarith [Real.pi_pos])
  have hsix : Real.pi / 3 / 2 = Real.pi / 6 := by ring
  have hq : normal_to_quat ⟨0, 0, 1/2⟩ = ⟨0, 0, 0, Real.cos (Real.pi / 6)⟩ := by
    rw [normal_to_quat, if_neg hnot]
    simp only [haxis, hdotu, hacos, hsix]
    simp [Quat.mk.injEq, zero_mul]
  refine ⟨h1, by rw [h1]; exact h2, ?_⟩
  rw [hq]
  simp only [qnormSq, Real.cos_pi_div_six]
  rw [div_pow, Real.sq_sqrt (by norm_num : (0:ℝ) ≤ 3)]
  norm_num

/-- Witness for C3 at the unit normal `(1, 0, 0)`. -/
theorem C3_witness : qrot (normal_to_quat ⟨1, 0, 0⟩) upAxis = ⟨1, 0, 0⟩ :=
  ((C3_normal_to_quat ⟨1, 0, 0⟩ (by norm_num [dot3])).2
    (by norm_num [dot3, upAxis])).2.2

/-- Witness for C8 on a one-vertex mesh with the uniform attribute. -/
theorem C8_witness :
    get_vertex_color 0 [] [] true
        (some ⟨AttrDomain.POINT, [⟨2/10, 4/10, 6/10, 8/10⟩]⟩) none true =
      ((2/10, 4/10, 6/10), 8/10) :=
  ((C8_point_color 0 [] [] [⟨2/10, 4/10, 6/10, 8/10⟩] none 1
    (by norm_num)).2 (by intro c hc; simpa using hc)).1

end SplatExport
